import Mathlib

/-!
Verification of the Amazon S3 Select module (awswrangler/s3/_select.py).

The development shallowly embeds the module:
the range planner (source function gen scan range), the stream decoder event
loop of the per-request reader (source function select object content), the
scan-range eligibility gate and dispatcher (source functions select query,
private, and paginate stream), and the public entry point (source function
select query).  Machine strings are modelled as lists of Unicode code points
(Nat); byte payloads as lists of Nat below 256.  External collaborators that
are not part of this module (path listing, size lookup, the remote call
payloads) are passed in as an explicit environment, and the network activity
of each function is returned as an explicit call trace.
-/

/-- The module constant for the default scan-range chunk size, 1024 * 1024. -/
def RANGE_CHUNK_SIZE : Nat := 1024 * 1024

/-- The planner loop of the source: for i in range(0, objSize, chunkSize)
yield (i, i + min(chunkSize, objSize - i)).  For a positive chunkSize the
Python range has (objSize + chunkSize - 1) / chunkSize iterations, the i-th
iterate being i * chunkSize. -/
def scanRangeLoop (objSize chunkSize : Nat) : List (Nat × Nat) :=
  (List.range' 0 ((objSize + chunkSize - 1) / chunkSize) chunkSize).map
    (fun i => (i, i + min chunkSize (objSize - i)))

/-- Model of the source planner function: chunk size defaults through the
Python expression (scan range chunk size or RANGE CHUNK SIZE), in which both
None and 0 are falsy, followed by the planner loop. -/
def gen_scan_range (objSize : Nat) (scanRangeChunkSize : Option Nat) : List (Nat × Nat) :=
  let chunkSize :=
    match scanRangeChunkSize with
    | none => RANGE_CHUNK_SIZE
    | some c => if c = 0 then RANGE_CHUNK_SIZE else c
  scanRangeLoop objSize chunkSize

theorem gen_scan_range_pos (S C : Nat) (hC : 0 < C) :
    gen_scan_range S (some C) = scanRangeLoop S C := by
  have : ¬ C = 0 := by omega
  simp [gen_scan_range, this]

theorem lt_ceilDiv_iff (S C k : Nat) (hC : 0 < C) :
    k < (S + C - 1) / C ↔ k * C < S := by
  rw [Nat.lt_iff_add_one_le, Nat.le_div_iff_mul_le hC, Nat.succ_mul]
  generalize k * C = m
  omega

theorem scanRangeLoop_length (S C : Nat) (hC : 0 < C) :
    (scanRangeLoop S C).length = (S + C - 1) / C := by
  simp [scanRangeLoop]

theorem scanRangeLoop_getElem? (S C k : Nat) (hC : 0 < C) :
    (scanRangeLoop S C)[k]? =
      if k * C < S then some (C * k, C * k + min C (S - C * k)) else none := by
  by_cases h : k * C < S
  · have hk : k < (scanRangeLoop S C).length := by
      rw [scanRangeLoop_length S C hC]
      exact (lt_ceilDiv_iff S C k hC).mpr h
    rw [List.getElem?_eq_getElem hk, if_pos h]
    simp [scanRangeLoop, List.getElem_range']
  · have hk : (scanRangeLoop S C).length ≤ k := by
      rw [scanRangeLoop_length S C hC]
      by_contra hcon
      exact h ((lt_ceilDiv_iff S C k hC).mp (by omega))
    rw [List.getElem?_eq_none hk, if_neg h]

/-- C1: For every object size S and chunk size C > 0, the range planner
produces half-open intervals that are contiguous, non-overlapping, start at
0, and end at S; every interval's length equals C except possibly the last,
which is truncated to fit; S = 0 yields the empty sequence and 0 < S < C
yields exactly the single range (0, S). -/
theorem claim_C1_scan_range_plan (S C : Nat) (hC : 0 < C) :
    (S = 0 → gen_scan_range S (some C) = []) ∧
    (0 < S → S < C → gen_scan_range S (some C) = [(0, S)]) ∧
    ((gen_scan_range S (some C)).head?.map Prod.fst = if 0 < S then some 0 else none) ∧
    ((gen_scan_range S (some C)).getLast?.map Prod.snd = if 0 < S then some S else none) ∧
    (∀ (k : Nat) (p q : Nat × Nat), (gen_scan_range S (some C))[k]? = some p →
        (gen_scan_range S (some C))[k + 1]? = some q → p.2 = q.1) ∧
    (∀ (j k : Nat) (p q : Nat × Nat), j < k → (gen_scan_range S (some C))[j]? = some p →
        (gen_scan_range S (some C))[k]? = some q → p.2 ≤ q.1) ∧
    (∀ (k : Nat) (p : Nat × Nat), (gen_scan_range S (some C))[k]? = some p →
        p.1 < p.2 ∧ p.2 - p.1 ≤ C ∧
        ((gen_scan_range S (some C))[k + 1]? ≠ none → p.2 - p.1 = C)) := by
  have hred : gen_scan_range S (some C) = scanRangeLoop S C := gen_scan_range_pos S C hC
  simp only [hred]
  refine ⟨?_, ?_, ?_, ?_, ?_, ?_, ?_⟩
  · intro hS
    subst hS
    have hlen : (scanRangeLoop 0 C).length = 0 := by
      rw [scanRangeLoop_length 0 C hC]
      have : 0 + C - 1 < C := by omega
      exact Nat.div_eq_of_lt this
    exact List.length_eq_zero.mp hlen
  · intro hS hSC
    have hn : (S + C - 1) / C = 1 := by
      have h0 : 0 < (S + C - 1) / C := (lt_ceilDiv_iff S C 0 hC).mpr (by omega)
      have h1 : ¬ 1 < (S + C - 1) / C := by
        intro hcon
        have := (lt_ceilDiv_iff S C 1 hC).mp hcon
        omega
      omega
    unfold scanRangeLoop
    rw [hn]
    have hr : List.range' 0 1 C = [0] := by simp
    rw [hr]
    simp
    omega
  · by_cases hS : 0 < S
    · have h0 : 0 * C < S := by omega
      rw [List.head?_eq_getElem? _, scanRangeLoop_getElem? S C 0 hC, if_pos h0, if_pos hS]
      simp
    · have hlen : (scanRangeLoop S C).length = 0 := by
        rw [scanRangeLoop_length S C hC]
        have : S + C - 1 < C := by omega
        exact Nat.div_eq_of_lt this
      rw [List.head?_eq_getElem? _, List.getElem?_eq_none (by omega), if_neg hS]
      rfl
  · by_cases hS : 0 < S
    · set n := (S + C - 1) / C with hn
      have hn0 : 0 < n := (lt_ceilDiv_iff S C 0 hC).mpr (by omega)
      have hlen : (scanRangeLoop S C).length = n := scanRangeLoop_length S C hC
      rw [List.getLast?_eq_getElem? _, hlen, scanRangeLoop_getElem? S C (n - 1) hC]
      have hlt : (n - 1) * C < S := (lt_ceilDiv_iff S C (n - 1) hC).mp (by omega)
      have hub : ¬ (n * C < S) := by
        intro hcon
        have := (lt_ceilDiv_iff S C n hC).mpr hcon
        omega
      have hsum : n * C = (n - 1) * C + C := by
        have hrw : n = (n - 1) + 1 := by omega
        nth_rewrite 1 [hrw]
        rw [Nat.succ_mul]
      rw [if_pos hlt, if_pos hS]
      simp only [Option.map_some']
      have hmul : C * (n - 1) = (n - 1) * C := Nat.mul_comm C (n - 1)
      rw [hmul]
      generalize hm : (n - 1) * C = m at hlt hsum
      have : m + min C (S - m) = S := by omega
      rw [this]
    · have hlen : (scanRangeLoop S C).length = 0 := by
        rw [scanRangeLoop_length S C hC]
        have : S + C - 1 < C := by omega
        exact Nat.div_eq_of_lt this
      have hnil : scanRangeLoop S C = [] := List.length_eq_zero.mp hlen
      rw [hnil, if_neg hS]
      rfl
  · intro k p q hp hq
    rw [scanRangeLoop_getElem? S C k hC] at hp
    rw [scanRangeLoop_getElem? S C (k + 1) hC] at hq
    by_cases h1 : k * C < S
    · rw [if_pos h1] at hp
      by_cases h2 : (k + 1) * C < S
      · rw [if_pos h2] at hq
        have hp2 := Option.some.inj hp
        have hq2 := Option.some.inj hq
        rw [← hp2, ← hq2]
        simp only
        have hmc : C * k = k * C := Nat.mul_comm C k
        have hmc2 : C * (k + 1) = (k + 1) * C := Nat.mul_comm C (k + 1)
        rw [hmc, hmc2, Nat.succ_mul] at *
        generalize k * C = m at h1 h2 ⊢
        omega
      · rw [if_neg h2] at hq
        exact absurd hq (by simp)
    · rw [if_neg h1] at hp
      exact absurd hp (by simp)
  · intro j k p q hjk hp hq
    rw [scanRangeLoop_getElem? S C j hC] at hp
    rw [scanRangeLoop_getElem? S C k hC] at hq
    by_cases h1 : j * C < S
    · by_cases h2 : k * C < S
      · rw [if_pos h1] at hp
        rw [if_pos h2] at hq
        have hp2 := Option.some.inj hp
        have hq2 := Option.some.inj hq
        rw [← hp2, ← hq2]
        simp only
        have hmono : (j + 1) * C ≤ k * C := Nat.mul_le_mul_right C (by omega)
        rw [Nat.succ_mul] at hmono
        have hmc : C * j = j * C := Nat.mul_comm C j
        have hmc2 : C * k = k * C := Nat.mul_comm C k
        rw [hmc, hmc2]
        generalize j * C = m at h1 hmono ⊢
        generalize k * C = m2 at h2 hmono ⊢
        omega
      · rw [if_neg h2] at hq
        exact absurd hq (by simp)
    · rw [if_neg h1] at hp
      exact absurd hp (by simp)
  · intro k p hp
    rw [scanRangeLoop_getElem? S C k hC] at hp
    by_cases h1 : k * C < S
    · rw [if_pos h1] at hp
      have hp2 := Option.some.inj hp
      rw [← hp2]
      simp only
      refine ⟨?_, ?_, ?_⟩
      · have hmc : C * k = k * C := Nat.mul_comm C k
        rw [hmc]
        generalize k * C = m at h1 ⊢
        omega
      · have hmc : C * k = k * C := Nat.mul_comm C k
        rw [hmc]
        generalize k * C = m at h1 ⊢
        omega
      · intro hnext
        rw [scanRangeLoop_getElem? S C (k + 1) hC] at hnext
        by_cases h2 : (k + 1) * C < S
        · have hmc : C * k = k * C := Nat.mul_comm C k
          rw [Nat.succ_mul] at h2
          rw [hmc]
          generalize k * C = m at h1 h2 ⊢
          omega
        · rw [if_neg h2] at hnext
          exact absurd rfl hnext
    · rw [if_neg h1] at hp
      exact absurd hp (by simp)

theorem claim_C1_scan_range_plan_witness :
    0 < 2 ∧ gen_scan_range 0 (some 2) = [] ∧ gen_scan_range 1 (some 2) = [(0, 1)] :=
  ⟨by decide, (claim_C1_scan_range_plan 0 2 (by decide)).1 rfl,
    (claim_C1_scan_range_plan 1 2 (by decide)).2.1 (by decide) (by decide)⟩

/-- C10: A chunk-size argument of None or 0 falls back to the default chunk
size constant 1,048,576 (Python or treats 0 as falsy), a zero chunk size
therefore never yields an error or an empty plan for a positive object size,
and an explicit positive chunk size is used as given. -/
theorem claim_C10_default_chunk :
    (∀ S, gen_scan_range S none = scanRangeLoop S RANGE_CHUNK_SIZE) ∧
    (∀ S, gen_scan_range S (some 0) = gen_scan_range S none) ∧
    (∀ S c, 0 < c → gen_scan_range S (some c) = scanRangeLoop S c) ∧
    (∀ S, 0 < S → gen_scan_range S (some 0) ≠ []) := by
  refine ⟨fun S => rfl, fun S => rfl, fun S c hc => gen_scan_range_pos S c hc, ?_⟩
  intro S hS
  have hD : 0 < RANGE_CHUNK_SIZE := by decide
  have h : gen_scan_range S (some 0) = scanRangeLoop S RANGE_CHUNK_SIZE := rfl
  rw [h]
  have hlen : 0 < (scanRangeLoop S RANGE_CHUNK_SIZE).length := by
    rw [scanRangeLoop_length S RANGE_CHUNK_SIZE hD]
    exact (lt_ceilDiv_iff S RANGE_CHUNK_SIZE 0 hD).mpr (by omega)
  exact List.length_pos.mp hlen

theorem claim_C10_default_chunk_witness :
    gen_scan_range 3 (some 0) = gen_scan_range 3 none ∧
    (0 < 2 ∧ gen_scan_range 5 (some 2) = scanRangeLoop 5 2) ∧
    (0 < 3 ∧ gen_scan_range 3 (some 0) ≠ []) :=
  ⟨claim_C10_default_chunk.2.1 3,
    ⟨by decide, claim_C10_default_chunk.2.2.1 5 2 (by decide)⟩,
    ⟨by decide, claim_C10_default_chunk.2.2.2 3 (by decide)⟩⟩

/-- True when b is a UTF-8 continuation byte (0x80 to 0xBF). -/
def utf8Cont (b : Nat) : Bool := decide (128 ≤ b ∧ b ≤ 191)

/-- Valid second byte of a three-byte sequence headed by b: lead 0xE0
restricts it to 0xA0..0xBF and lead 0xED to 0x80..0x9F. -/
def utf8Cont3 (b b2 : Nat) : Bool :=
  if b = 224 then decide (160 ≤ b2 ∧ b2 ≤ 191)
  else if b = 237 then decide (128 ≤ b2 ∧ b2 ≤ 159)
  else utf8Cont b2

/-- Valid second byte of a four-byte sequence headed by b: lead 0xF0
restricts it to 0x90..0xBF and lead 0xF4 to 0x80..0x8F. -/
def utf8Cont4 (b b2 : Nat) : Bool :=
  if b = 240 then decide (144 ≤ b2 ∧ b2 ≤ 191)
  else if b = 244 then decide (128 ≤ b2 ∧ b2 ≤ 143)
  else utf8Cont b2

/-- Best-effort UTF-8 decoding of a byte list into a code-point list,
mirroring the Python expression bytes.decode with encoding utf-8 and
errors=ignore used by the source event loop: an invalid byte is dropped, a
lead byte whose continuation run is invalid is dropped together with its
longest valid continuation prefix, and a truncated sequence at the end of
the input is dropped. -/
def utf8DecodeIgnore : List Nat → List Nat
  | [] => []
  | b :: bs =>
    if b < 128 then b :: utf8DecodeIgnore bs
    else if 194 ≤ b ∧ b ≤ 223 then
      match bs with
      | [] => []
      | b2 :: bs2 =>
        if utf8Cont b2 then ((b - 192) * 64 + (b2 - 128)) :: utf8DecodeIgnore bs2
        else utf8DecodeIgnore (b2 :: bs2)
    else if 224 ≤ b ∧ b ≤ 239 then
      match bs with
      | [] => []
      | b2 :: bs2 =>
        if utf8Cont3 b b2 then
          match bs2 with
          | [] => []
          | b3 :: bs3 =>
            if utf8Cont b3 then
              (((b - 224) * 64 + (b2 - 128)) * 64 + (b3 - 128)) :: utf8DecodeIgnore bs3
            else utf8DecodeIgnore (b3 :: bs3)
        else utf8DecodeIgnore (b2 :: bs2)
    else if 240 ≤ b ∧ b ≤ 244 then
      match bs with
      | [] => []
      | b2 :: bs2 =>
        if utf8Cont4 b b2 then
          match bs2 with
          | [] => []
          | b3 :: bs3 =>
            if utf8Cont b3 then
              match bs3 with
              | [] => []
              | b4 :: bs4 =>
                if utf8Cont b4 then
                  ((((b - 240) * 64 + (b2 - 128)) * 64 + (b3 - 128)) * 64 + (b4 - 128)) ::
                    utf8DecodeIgnore bs4
                else utf8DecodeIgnore (b4 :: bs4)
            else utf8DecodeIgnore (b3 :: bs3)
        else utf8DecodeIgnore (b2 :: bs2)
    else utf8DecodeIgnore bs
termination_by l => l.length
decreasing_by all_goals (simp only [List.length_cons]; omega)

/-- Structural validity of a byte list as UTF-8; mirrors exactly the
accepting paths of utf8DecodeIgnore. -/
def isUtf8 : List Nat → Bool
  | [] => true
  | b :: bs =>
    if b < 128 then isUtf8 bs
    else if 194 ≤ b ∧ b ≤ 223 then
      match bs with
      | [] => false
      | b2 :: bs2 => if utf8Cont b2 then isUtf8 bs2 else false
    else if 224 ≤ b ∧ b ≤ 239 then
      match bs with
      | [] => false
      | b2 :: bs2 =>
        if utf8Cont3 b b2 then
          match bs2 with
          | [] => false
          | b3 :: bs3 => if utf8Cont b3 then isUtf8 bs3 else false
        else false
    else if 240 ≤ b ∧ b ≤ 244 then
      match bs with
      | [] => false
      | b2 :: bs2 =>
        if utf8Cont4 b b2 then
          match bs2 with
          | [] => false
          | b3 :: bs3 =>
            if utf8Cont b3 then
              match bs3 with
              | [] => false
              | b4 :: bs4 => if utf8Cont b4 then isUtf8 bs4 else false
            else false
        else false
    else false

theorem decode_nil : utf8DecodeIgnore [] = [] := by
  rw [utf8DecodeIgnore.eq_def]

theorem decode_ascii {b : Nat} {bs : List Nat} (h : b < 128) :
    utf8DecodeIgnore (b :: bs) = b :: utf8DecodeIgnore bs := by
  rw [utf8DecodeIgnore.eq_def]
  simp only [if_pos h]

theorem decode_two {b b2 : Nat} {bs : List Nat} (h1 : 194 ≤ b) (h2 : b ≤ 223)
    (hc : utf8Cont b2 = true) :
    utf8DecodeIgnore (b :: b2 :: bs) =
      ((b - 192) * 64 + (b2 - 128)) :: utf8DecodeIgnore bs := by
  rw [utf8DecodeIgnore.eq_def]
  simp only [if_neg (show ¬ b < 128 by omega),
    if_pos (show 194 ≤ b ∧ b ≤ 223 from ⟨h1, h2⟩), if_pos hc]

theorem decode_two_end {b : Nat} (h1 : 194 ≤ b) (h2 : b ≤ 223) :
    utf8DecodeIgnore [b] = [] := by
  rw [utf8DecodeIgnore.eq_def]
  simp only [if_neg (show ¬ b < 128 by omega),
    if_pos (show 194 ≤ b ∧ b ≤ 223 from ⟨h1, h2⟩)]

theorem decode_three {b b2 b3 : Nat} {bs : List Nat} (h1 : 224 ≤ b) (h2 : b ≤ 239)
    (hc : utf8Cont3 b b2 = true) (hc3 : utf8Cont b3 = true) :
    utf8DecodeIgnore (b :: b2 :: b3 :: bs) =
      (((b - 224) * 64 + (b2 - 128)) * 64 + (b3 - 128)) :: utf8DecodeIgnore bs := by
  rw [utf8DecodeIgnore.eq_def]
  simp only [if_neg (show ¬ b < 128 by omega),
    if_neg (show ¬ (194 ≤ b ∧ b ≤ 223) by omega),
    if_pos (show 224 ≤ b ∧ b ≤ 239 from ⟨h1, h2⟩), if_pos hc, if_pos hc3]

theorem decode_four {b b2 b3 b4 : Nat} {bs : List Nat} (h1 : 240 ≤ b) (h2 : b ≤ 244)
    (hc : utf8Cont4 b b2 = true) (hc3 : utf8Cont b3 = true) (hc4 : utf8Cont b4 = true) :
    utf8DecodeIgnore (b :: b2 :: b3 :: b4 :: bs) =
      ((((b - 240) * 64 + (b2 - 128)) * 64 + (b3 - 128)) * 64 + (b4 - 128)) ::
        utf8DecodeIgnore bs := by
  rw [utf8DecodeIgnore.eq_def]
  simp only [if_neg (show ¬ b < 128 by omega),
    if_neg (show ¬ (194 ≤ b ∧ b ≤ 223) by omega),
    if_neg (show ¬ (224 ≤ b ∧ b ≤ 239) by omega),
    if_pos (show 240 ≤ b ∧ b ≤ 244 from ⟨h1, h2⟩), if_pos hc, if_pos hc3, if_pos hc4]

theorem decode_skip_low {b : Nat} {bs : List Nat} (h1 : 128 ≤ b) (h2 : b < 194) :
    utf8DecodeIgnore (b :: bs) = utf8DecodeIgnore bs := by
  rw [utf8DecodeIgnore.eq_def]
  simp only [if_neg (show ¬ b < 128 by omega),
    if_neg (show ¬ (194 ≤ b ∧ b ≤ 223) by omega),
    if_neg (show ¬ (224 ≤ b ∧ b ≤ 239) by omega),
    if_neg (show ¬ (240 ≤ b ∧ b ≤ 244) by omega)]

theorem isUtf8_ascii {b : Nat} {bs : List Nat} (h : b < 128) :
    isUtf8 (b :: bs) = isUtf8 bs := by
  rw [isUtf8.eq_def]
  simp only [if_pos h]

theorem isUtf8_end {b : Nat} (h1 : 194 ≤ b) (h2 : b ≤ 244) :
    isUtf8 [b] = false := by
  rw [isUtf8.eq_def]
  simp only [if_neg (show ¬ b < 128 by omega)]
  by_cases hA : 194 ≤ b ∧ b ≤ 223
  · simp only [if_pos hA]
  · simp only [if_neg hA]
    by_cases hB : 224 ≤ b ∧ b ≤ 239
    · simp only [if_pos hB]
    · simp only [if_neg hB, if_pos (show 240 ≤ b ∧ b ≤ 244 by omega)]

theorem isUtf8_end2 {b b2 : Nat} (h1 : 224 ≤ b) (h2 : b ≤ 244) :
    isUtf8 [b, b2] = false := by
  rw [isUtf8.eq_def]
  simp only [if_neg (show ¬ b < 128 by omega),
    if_neg (show ¬ (194 ≤ b ∧ b ≤ 223) by omega)]
  by_cases hB : 224 ≤ b ∧ b ≤ 239
  · simp only [if_pos hB]
    cases hcc : utf8Cont3 b b2 <;> simp [hcc]
  · simp only [if_neg hB, if_pos (show 240 ≤ b ∧ b ≤ 244 by omega)]
    cases hcc : utf8Cont4 b b2 <;> simp [hcc]

theorem isUtf8_end3 {b b2 b3 : Nat} (h1 : 240 ≤ b) (h2 : b ≤ 244) :
    isUtf8 [b, b2, b3] = false := by
  rw [isUtf8.eq_def]
  simp only [if_neg (show ¬ b < 128 by omega),
    if_neg (show ¬ (194 ≤ b ∧ b ≤ 223) by omega),
    if_neg (show ¬ (224 ≤ b ∧ b ≤ 239) by omega),
    if_pos (show 240 ≤ b ∧ b ≤ 244 from ⟨h1, h2⟩)]
  cases hcc : utf8Cont4 b b2 <;> cases hc3 : utf8Cont b3 <;> simp [hcc, hc3]

theorem isUtf8_two {b b2 : Nat} {bs : List Nat} (h1 : 194 ≤ b) (h2 : b ≤ 223) :
    isUtf8 (b :: b2 :: bs) = (utf8Cont b2 && isUtf8 bs) := by
  rw [isUtf8.eq_def]
  simp only [if_neg (show ¬ b < 128 by omega),
    if_pos (show 194 ≤ b ∧ b ≤ 223 from ⟨h1, h2⟩)]
  cases hcc : utf8Cont b2 <;> simp [hcc]

theorem isUtf8_three {b b2 b3 : Nat} {bs : List Nat} (h1 : 224 ≤ b) (h2 : b ≤ 239) :
    isUtf8 (b :: b2 :: b3 :: bs) = (utf8Cont3 b b2 && (utf8Cont b3 && isUtf8 bs)) := by
  rw [isUtf8.eq_def]
  simp only [if_neg (show ¬ b < 128 by omega),
    if_neg (show ¬ (194 ≤ b ∧ b ≤ 223) by omega),
    if_pos (show 224 ≤ b ∧ b ≤ 239 from ⟨h1, h2⟩)]
  cases hcc : utf8Cont3 b b2 <;> cases hc3 : utf8Cont b3 <;> simp [hcc, hc3]

theorem isUtf8_four {b b2 b3 b4 : Nat} {bs : List Nat} (h1 : 240 ≤ b) (h2 : b ≤ 244) :
    isUtf8 (b :: b2 :: b3 :: b4 :: bs) =
      (utf8Cont4 b b2 && (utf8Cont b3 && (utf8Cont b4 && isUtf8 bs))) := by
  rw [isUtf8.eq_def]
  simp only [if_neg (show ¬ b < 128 by omega),
    if_neg (show ¬ (194 ≤ b ∧ b ≤ 223) by omega),
    if_neg (show ¬ (224 ≤ b ∧ b ≤ 239) by omega),
    if_pos (show 240 ≤ b ∧ b ≤ 244 from ⟨h1, h2⟩)]
  cases hcc : utf8Cont4 b b2 <;> cases hc3 : utf8Cont b3 <;> cases hc4 : utf8Cont b4 <;>
    simp [hcc, hc3, hc4]

theorem isUtf8_bad {b : Nat} {bs : List Nat} (h1 : 128 ≤ b)
    (h2 : b < 194 ∨ 245 ≤ b) : isUtf8 (b :: bs) = false := by
  rw [isUtf8.eq_def]
  simp only [if_neg (show ¬ b < 128 by omega),
    if_neg (show ¬ (194 ≤ b ∧ b ≤ 223) by omega),
    if_neg (show ¬ (224 ≤ b ∧ b ≤ 239) by omega),
    if_neg (show ¬ (240 ≤ b ∧ b ≤ 244) by omega)]

theorem isUtf8_three_badc {b b2 : Nat} {bs : List Nat} (h1 : 224 ≤ b) (h2 : b ≤ 239)
    (hc : ¬ utf8Cont3 b b2 = true) : isUtf8 (b :: b2 :: bs) = false := by
  rw [isUtf8.eq_def]
  simp only [if_neg (show ¬ b < 128 by omega),
    if_neg (show ¬ (194 ≤ b ∧ b ≤ 223) by omega),
    if_pos (show 224 ≤ b ∧ b ≤ 239 from ⟨h1, h2⟩), if_neg hc]

theorem isUtf8_four_bad3 {b b2 b3 : Nat} {bs : List Nat} (h1 : 240 ≤ b) (h2 : b ≤ 244)
    (hc : utf8Cont4 b b2 = true) (hc3 : ¬ utf8Cont b3 = true) :
    isUtf8 (b :: b2 :: b3 :: bs) = false := by
  rw [isUtf8.eq_def]
  simp only [if_neg (show ¬ b < 128 by omega),
    if_neg (show ¬ (194 ≤ b ∧ b ≤ 223) by omega),
    if_neg (show ¬ (224 ≤ b ∧ b ≤ 239) by omega),
    if_pos (show 240 ≤ b ∧ b ≤ 244 from ⟨h1, h2⟩), if_pos hc, if_neg hc3]

theorem isUtf8_four_bad2 {b b2 : Nat} {bs : List Nat} (h1 : 240 ≤ b) (h2 : b ≤ 244)
    (hc : ¬ utf8Cont4 b b2 = true) : isUtf8 (b :: b2 :: bs) = false := by
  rw [isUtf8.eq_def]
  simp only [if_neg (show ¬ b < 128 by omega),
    if_neg (show ¬ (194 ≤ b ∧ b ≤ 223) by omega),
    if_neg (show ¬ (224 ≤ b ∧ b ≤ 239) by omega),
    if_pos (show 240 ≤ b ∧ b ≤ 244 from ⟨h1, h2⟩), if_neg hc]

theorem utf8DecodeIgnore_append : ∀ a bb : List Nat, isUtf8 a = true →
    utf8DecodeIgnore (a ++ bb) = utf8DecodeIgnore a ++ utf8DecodeIgnore bb := by
  intro a
  induction a using isUtf8.induct with
  | case1 =>
    intro bb h
    simp [decode_nil]
  | case2 b bs hlt ih1 =>
    intro bb h
    rw [isUtf8_ascii hlt] at h
    simp only [List.cons_append, decode_ascii hlt, ih1 bb h]
  | case3 b hn hr =>
    intro bb h
    rw [isUtf8_end hr.1 (by omega)] at h
    simp at h
  | case4 b hn hr b2 bs hc ih1 =>
    intro bb h
    rw [isUtf8_two hr.1 hr.2] at h
    simp only [hc, Bool.true_and] at h
    simp only [List.cons_append, decode_two hr.1 hr.2 hc, ih1 bb h]
  | case5 b hn hr b2 bs hc =>
    intro bb h
    rw [isUtf8_two hr.1 hr.2] at h
    simp [hc] at h
  | case6 b hn hn2 hr =>
    intro bb h
    rw [isUtf8_end (by omega) (by omega)] at h
    simp at h
  | case7 b hn hn2 hr b2 hc =>
    intro bb h
    rw [isUtf8_end2 (by omega) (by omega)] at h
    simp at h
  | case8 b hn hn2 hr b2 hc b3 bs hc3 ih1 =>
    intro bb h
    rw [isUtf8_three hr.1 hr.2] at h
    simp only [hc, hc3, Bool.true_and] at h
    simp only [List.cons_append, decode_three hr.1 hr.2 hc hc3, ih1 bb h]
  | case9 b hn hn2 hr b2 hc b3 bs hc3 =>
    intro bb h
    rw [isUtf8_three hr.1 hr.2] at h
    simp [hc, hc3] at h
  | case10 b hn hn2 hr b2 bs hc =>
    intro bb h
    rw [isUtf8_three_badc hr.1 hr.2 hc] at h
    simp at h
  | case11 b hn hn2 hn3 hr =>
    intro bb h
    rw [isUtf8_end (by omega) (by omega)] at h
    simp at h
  | case12 b hn hn2 hn3 hr b2 hc =>
    intro bb h
    rw [isUtf8_end2 (by omega) (by omega)] at h
    simp at h
  | case13 b hn hn2 hn3 hr b2 hc b3 hc3 =>
    intro bb h
    rw [isUtf8_end3 (by omega) (by omega)] at h
    simp at h
  | case14 b hn hn2 hn3 hr b2 hc b3 hc3 b4 bs hc4 ih1 =>
    intro bb h
    rw [isUtf8_four hr.1 hr.2] at h
    simp only [hc, hc3, hc4, Bool.true_and] at h
    simp only [List.cons_append, decode_four hr.1 hr.2 hc hc3 hc4, ih1 bb h]
  | case15 b hn hn2 hn3 hr b2 hc b3 hc3 b4 bs hc4 =>
    intro bb h
    rw [isUtf8_four hr.1 hr.2] at h
    simp [hc, hc3, hc4] at h
  | case16 b hn hn2 hn3 hr b2 hc b3 bs hc3 =>
    intro bb h
    rw [isUtf8_four_bad3 hr.1 hr.2 hc hc3] at h
    simp at h
  | case17 b hn hn2 hn3 hr b2 bs hc =>
    intro bb h
    rw [isUtf8_four_bad2 hr.1 hr.2 hc] at h
    simp at h
  | case18 b bs hn hn2 hn3 hn4 =>
    intro bb h
    rw [isUtf8_bad (by omega) (by omega)] at h
    simp at h

theorem utf8DecodeIgnore_flatten (cs : List (List Nat))
    (h : ∀ c ∈ cs, isUtf8 c = true) :
    utf8DecodeIgnore cs.flatten = (cs.map utf8DecodeIgnore).flatten := by
  induction cs with
  | nil => simp [decode_nil]
  | cons c cs ih =>
    simp only [List.flatten_cons, List.map_cons]
    rw [utf8DecodeIgnore_append c cs.flatten (h c (by simp))]
    rw [ih (fun x hx => h x (by simp [hx]))]

/-- Split a decoded text on the newline code point 10, as Python str.split,
returned as (all pieces except the last, last piece).  The full Python piece
list is the first component followed by the second. -/
def splitNl : List Nat → List (List Nat) × List Nat
  | [] => ([], [])
  | b :: bs =>
    let r := splitNl bs
    if b = 10 then (List.nil :: r.1, r.2)
    else
      match r with
      | ([], l) => ([], b :: l)
      | (p :: ps, l) => ((b :: p) :: ps, l)

/-- Prepending a carried text to the first piece of a split result, as the
source statement records[0] = partial record + records[0] followed by
popping the last piece. -/
def glueNl (carry : List Nat) : List (List Nat) × List Nat → List (List Nat) × List Nat
  | ([], l) => ([], carry ++ l)
  | (p :: ps, l) => ((carry ++ p) :: ps, l)

/-- One iteration of the source event loop of the per-request reader, on an
already decoded payload text: split on newline, prepend the carried partial
record to the first piece, withhold the last piece as the new carry, and
emit the remaining pieces as complete records. -/
def processChunk (carry decoded : List Nat) : List (List Nat) × List Nat :=
  glueNl carry (splitNl decoded)

/-- The source event loop over a list of decoded payload texts, starting
from a given carried partial record; the final carry is dropped at end of
stream, exactly as in the source, which never parses the last popped
piece. -/
def runStream : List Nat → List (List Nat) → List (List Nat)
  | _, [] => []
  | carry, d :: ds =>
    (processChunk carry d).1 ++ runStream (processChunk carry d).2 ds

/-- The record texts collected by the source per-request reader from the
Records payload byte fragments of one response event stream: each fragment
is decoded best-effort as UTF-8, then fed through the carried-partial event
loop with an initially empty carry. -/
def selectRecords (chunks : List (List Nat)) : List (List Nat) :=
  runStream [] (chunks.map utf8DecodeIgnore)

theorem glueNl_nil (r : List (List Nat) × List Nat) : glueNl [] r = r := by
  rcases r with ⟨ps, l⟩
  cases ps <;> simp [glueNl]

theorem splitNl_append (a b : List Nat) :
    splitNl (a ++ b) =
      ((splitNl a).1 ++ (glueNl (splitNl a).2 (splitNl b)).1,
       (glueNl (splitNl a).2 (splitNl b)).2) := by
  induction a with
  | nil => simp [splitNl, glueNl_nil]
  | cons x a ih =>
    by_cases hx : x = 10
    · subst hx
      simp [splitNl, ih]
    · rcases hsa : splitNl a with ⟨ps, l⟩
      rcases hsb : splitNl b with ⟨psb, lb⟩
      cases ps with
      | nil =>
        cases psb with
        | nil => simp [splitNl, hx, ih, hsa, hsb, glueNl]
        | cons pb psb2 => simp [splitNl, hx, ih, hsa, hsb, glueNl]
      | cons p ps2 => simp [splitNl, hx, ih, hsa, hsb, glueNl]

theorem processChunk_append (carry d1 d2 : List Nat) :
    (processChunk carry (d1 ++ d2)).1 =
      (processChunk carry d1).1 ++ (processChunk (processChunk carry d1).2 d2).1 ∧
    (processChunk carry (d1 ++ d2)).2 = (processChunk (processChunk carry d1).2 d2).2 := by
  rcases h1 : splitNl d1 with ⟨ps1, l1⟩
  rcases h2 : splitNl d2 with ⟨ps2, l2⟩
  have h12 := splitNl_append d1 d2
  rw [h1, h2] at h12
  cases ps1 <;> cases ps2 <;>
    simp_all [processChunk, glueNl]

theorem runStream_merge (carry d1 d2 : List Nat) (ds : List (List Nat)) :
    runStream carry ((d1 ++ d2) :: ds) = runStream carry (d1 :: d2 :: ds) := by
  have h := processChunk_append carry d1 d2
  simp [runStream, h.1, h.2]

theorem runStream_flattenAll (ds : List (List Nat)) (carry : List Nat) :
    runStream carry ds = runStream carry [ds.flatten] := by
  induction ds generalizing carry with
  | nil => simp [runStream, processChunk, splitNl, glueNl]
  | cons d ds ih =>
    rw [List.flatten_cons, runStream_merge carry d ds.flatten []]
    simp only [runStream]
    rw [ih (processChunk carry d).2]
    simp [runStream]

theorem splitNl_no_newline (t : List Nat) (h : ∀ b ∈ t, b ≠ 10) :
    splitNl t = ([], t) := by
  induction t with
  | nil => rfl
  | cons x ts ih =>
    have hx : x ≠ 10 := h x (by simp)
    have ih2 := ih (fun b hb => h b (by simp [hb]))
    simp [splitNl, hx, ih2]

/-- C2 counterexample: the UTF-8 encoding of the single newline-terminated
JSON record whose value is the two-byte character e-acute (bytes 0xC3 0xA9,
code point 233), fed in one fragment versus split between those two bytes.
The one-fragment stream decodes the record intact, while the split stream
drops both bytes of the character (each half is discarded by the
best-effort per-fragment UTF-8 decode), yielding a record with an empty
string value instead: the two parsed record lists differ. -/
theorem claim_C2_fragmentation_cex :
    selectRecords [[123, 34, 97, 34, 58, 34, 195, 169, 34, 125, 10]] =
      [[123, 34, 97, 34, 58, 34, 233, 34, 125]] ∧
    selectRecords [[123, 34, 97, 34, 58, 34, 195], [169, 34, 125, 10]] =
      [[123, 34, 97, 34, 58, 34, 34, 125]] ∧
    selectRecords [[123, 34, 97, 34, 58, 34, 195], [169, 34, 125, 10]] ≠
      selectRecords [[123, 34, 97, 34, 58, 34, 195, 169, 34, 125, 10]] := by
  refine ⟨?_, ?_, ?_⟩ <;>
    simp [selectRecords, runStream, processChunk, splitNl, glueNl,
      decode_ascii, decode_two, decode_two_end, decode_skip_low, decode_nil,
      utf8Cont, utf8Cont3, utf8Cont4]

/-- C2 amended: feeding the stream decoder the encoded byte stream in one
single payload fragment versus split into multiple payload fragments yields
the identical record list PROVIDED every fragment boundary falls between
complete UTF-8 characters (each fragment is itself valid UTF-8); splits in
the middle of a record are still allowed, but a split inside a multi-byte
UTF-8 character can drop bytes and alter a record. -/
theorem claim_C2_fragment_invariant (chunks : List (List Nat))
    (h : ∀ c ∈ chunks, isUtf8 c = true) :
    selectRecords chunks = selectRecords [chunks.flatten] := by
  unfold selectRecords
  rw [runStream_flattenAll (chunks.map utf8DecodeIgnore) []]
  simp only [List.map_cons, List.map_nil]
  rw [← utf8DecodeIgnore_flatten chunks h]

theorem claim_C2_fragment_invariant_witness :
    (∀ c ∈ [[123, 10], [34, 98]], isUtf8 c = true) ∧
    selectRecords [[123, 10], [34, 98]] =
      selectRecords [[[123, 10], [34, 98]].flatten] :=
  ⟨by decide, claim_C2_fragment_invariant [[123, 10], [34, 98]] (by decide)⟩

/-- C9: at end of stream the decoder event loop discards the carried-over
partial fragment: whenever the concatenated decoded payload is s followed
by a newline-free tail t, the emitted record texts are exactly those for s
alone, so the trailing piece after the last newline contributes no
record. -/
theorem claim_C9_trailing_discarded (chunks : List (List Nat)) (s t : List Nat)
    (hj : chunks.flatten = s ++ t) (ht : ∀ b ∈ t, b ≠ 10) :
    runStream [] chunks = runStream [] [s] := by
  rw [runStream_flattenAll chunks [], hj, runStream_merge [] s t []]
  have hsp : splitNl t = ([], t) := splitNl_no_newline t ht
  simp [runStream, processChunk, hsp, glueNl]

theorem claim_C9_trailing_discarded_witness :
    ([[104, 10, 105]] : List (List Nat)).flatten = [104, 10] ++ [105] ∧
    (∀ b ∈ [105], b ≠ 10) ∧
    runStream [] [[104, 10, 105]] = runStream [] [[104, 10]] :=
  ⟨by decide, by decide,
    claim_C9_trailing_discarded [[104, 10, 105]] [104, 10] [105] (by decide) (by decide)⟩

/-- String constants of the source module. -/
def keyAllowQuoted : String := "AllowQuotedRecordDelimiter"

/-- Placeholder field name for a non-empty model schema. -/
def fieldName : String := "f0"

def keyType : String := "Type"

def valDocument : String := "Document"

def serCSV : String := "CSV"

def serJSON : String := "JSON"

def serParquet : String := "Parquet"

def compGzip : String := "gzip"

def compBzip2 : String := "bzip2"

def serXML : String := "XML"

def compZip : String := "zip"

def emptyStr : String := ""

def pathK : String := "k"

/-- A decoded columnar table: a schema (list of field names, empty when no
records were collected) and the rows (record texts). -/
structure Table where
  schema : List String
  rows : List (List Nat)
deriving DecidableEq

/-- Modelled from the spec: the utils helper pylist to arrow (not under
src) converts the collected record list into a columnar table whose schema
is empty exactly when zero records were collected (spec section 4.2: if
zero records were collected, the result has an empty or undefined schema
and is treated as no contribution). -/
def pylist_to_arrow (records : List (List Nat)) : Table :=
  { schema := if records.isEmpty then [] else [fieldName], rows := records }

/-- The external collaborators of the module, passed as data: the resolved
object list returned by the path listing helper, the size lookup, and the
Records payload byte fragments that the remote filtering call streams back
for a given path and optional scan range. -/
structure Env where
  resolvedPaths : List String
  sizeOf : String → Option Nat
  payload : String → Option (Nat × Nat) → List (List Nat)

/-- One remote network interaction performed by the module. -/
inductive NetCall where
  | resolvePaths
  | sizeLookup (path : String)
  | selectContent (path : String) (scanRange : Option (Nat × Nat))
deriving DecidableEq

/-- The error conditions raised by the module. -/
inductive WrErr where
  | invalidArgumentValue
  | invalidCompression
  | invalidArgumentCombination
  | noFilesFound
deriving DecidableEq

/-- Modelled from the spec: the exceptions module is not under src; the
spec error taxonomy (section 7) classes the format, compression,
combination and undefined-size conditions as InvalidArgument-class errors
raised before any network call, while NoFilesFound is a separate
condition. -/
def isInvalidArgumentClass : WrErr → Bool
  | WrErr.invalidArgumentValue => true
  | WrErr.invalidCompression => true
  | WrErr.invalidArgumentCombination => true
  | WrErr.noFilesFound => false

/-- Model of the source per-request reader: issue one filtering call
(optionally with a scan range), run the decoder event loop over the
streamed payload fragments, and convert the collected records into a
table. -/
def _select_object_content (env : Env) (path : String)
    (scanRange : Option (Nat × Nat)) : Table :=
  pylist_to_arrow (selectRecords (env.payload path scanRange))

/-- A dictionary value of the input serialization parameters (Python
Union of bool and str). -/
inductive ParamValue where
  | b (v : Bool)
  | s (v : String)
deriving DecidableEq

/-- Python truthiness of an absent or present parameter value. -/
def truthyParam : Option ParamValue → Bool
  | none => false
  | some (ParamValue.b v) => v
  | some (ParamValue.s v) => !(v == "")

/-- Python truthiness of the optional compression string. -/
def truthyCompression : Option String → Bool
  | none => false
  | some s => !(s == "")

/-- The any-condition of the source gate: compression truthy, or the
AllowQuotedRecordDelimiter parameter truthy, or the Type parameter equal to
the string Document. -/
def scanRangeIneligible (params : List (String × ParamValue))
    (compression : Option String) : Bool :=
  truthyCompression compression ||
    truthyParam (params.lookup keyAllowQuoted) ||
    (params.lookup keyType == some (ParamValue.s valDocument))

/-- Model of the source range dispatcher: look up the object size (failing
with InvalidArgumentValue when undefined), plan the scan ranges, decode one
table per range, and keep only tables with a non-empty schema.  The
sequential and the thread-pool branches of the source produce the same
ordered table list (executor map preserves argument order), so the model
has a single map and the concurrency flag is omitted. -/
def _paginate_stream (env : Env) (path : String) (chunk : Option Nat) :
    List NetCall × Except WrErr (List Table) :=
  match env.sizeOf path with
  | none => ([NetCall.sizeLookup path], Except.error WrErr.invalidArgumentValue)
  | some objSize =>
    let ranges := gen_scan_range objSize chunk
    let tables := ranges.map (fun r => _select_object_content env path (some r))
    (NetCall.sizeLookup path :: ranges.map (fun r => NetCall.selectContent path (some r)),
     Except.ok (tables.filter (fun t => !t.schema.isEmpty)))

/-- Model of the source per-object query: when the gate declares the input
ineligible for range splitting, one whole-object reader call with no scan
range; otherwise the range dispatcher. -/
def _select_query (env : Env) (path : String)
    (params : List (String × ParamValue)) (compression : Option String)
    (chunk : Option Nat) : List NetCall × Except WrErr (List Table) :=
  if scanRangeIneligible params compression then
    ([NetCall.selectContent path none],
     Except.ok [_select_object_content env path none])
  else
    _paginate_stream env path chunk

/-- Modelled from the spec: the fan-out helper (read tables from multiple
paths, not under src) invokes the per-object query on each resolved path in
order and the orchestrator flattens the per-object table lists; a failure
in any one object call propagates immediately and aborts the query
(spec sections 4.5 and 7). -/
def runObjects (env : Env) (params : List (String × ParamValue))
    (compression : Option String) (chunk : Option Nat) :
    List String → List NetCall × Except WrErr (List Table)
  | [] => ([], Except.ok [])
  | p :: rest =>
    match _select_query env p params compression chunk with
    | (calls, Except.error e) => (calls, Except.error e)
    | (calls, Except.ok ts) =>
      match runObjects env params compression chunk rest with
      | (calls2, Except.error e) => (calls ++ calls2, Except.error e)
      | (calls2, Except.ok ts2) => (calls ++ calls2, Except.ok (ts ++ ts2))

/-- Modelled from the spec: the merge step (concat tables and the dataframe
conversion, not under src) concatenates all surviving decoded tables
row-wise into one table materialized as the caller-facing dataframe; when
every object yields zero records the result is a valid empty dataframe,
not an error (spec section 4.5). -/
def concat_tables (ts : List Table) : Table :=
  { schema := (ts.map Table.schema).flatten, rows := (ts.map Table.rows).flatten }

/-- Model of the public entry point select query: validate the input
format, the compression, and their combination, then resolve the paths
(one listing call), fail with NoFilesFound on an empty resolution, then
fan out the per-object query over every resolved path and merge the
resulting tables. -/
def select_query (env : Env) (inputSerialization : String)
    (params : List (String × ParamValue)) (compression : Option String)
    (chunk : Option Nat) : List NetCall × Except WrErr Table :=
  if ¬ (inputSerialization ∈ [serCSV, serJSON, serParquet]) then
    ([], Except.error WrErr.invalidArgumentValue)
  else if ¬ (compression ∈ [none, some compGzip, some compBzip2]) then
    ([], Except.error WrErr.invalidCompression)
  else if truthyCompression compression = true ∧ ¬ (inputSerialization ∈ [serCSV, serJSON]) then
    ([], Except.error WrErr.invalidArgumentCombination)
  else if env.resolvedPaths.isEmpty then
    ([NetCall.resolvePaths], Except.error WrErr.noFilesFound)
  else
    match runObjects env params compression chunk env.resolvedPaths with
    | (calls, Except.error e) => (NetCall.resolvePaths :: calls, Except.error e)
    | (calls, Except.ok ts) => (NetCall.resolvePaths :: calls, Except.ok (concat_tables ts))

/-- A small concrete environment used by the witnesses: one resolved
object of size 3 whose event streams carry no Records payload. -/
def envW : Env :=
  { resolvedPaths := [pathK], sizeOf := fun _ => some 3, payload := fun _ _ => [] }

/-- A concrete environment whose size lookup returns no value. -/
def envN : Env :=
  { resolvedPaths := [pathK], sizeOf := fun _ => none, payload := fun _ _ => [] }

/-- A concrete environment whose path resolution yields no objects. -/
def envZ : Env :=
  { resolvedPaths := [], sizeOf := fun _ => some 1, payload := fun _ _ => [] }

/-- C3 amended: the eligibility gate behaves exactly as: if compression is
truthy (a non-empty string), or AllowQuotedRecordDelimiter is truthy, or
the Type parameter equals Document, then exactly one reader call for the
whole object with no scan-range argument; otherwise the range dispatcher
runs, issuing the size lookup and one reader call per planned scan range.
(The claim read compression is set as any value other than none; the empty
string refutes that reading, see the counterexample.) -/
theorem claim_C3_gate (env : Env) (path : String)
    (params : List (String × ParamValue)) (comp : Option String) (chunk : Option Nat) :
    (scanRangeIneligible params comp = true →
      _select_query env path params comp chunk =
        ([NetCall.selectContent path none],
         Except.ok [_select_object_content env path none])) ∧
    (scanRangeIneligible params comp = false →
      ∀ S, env.sizeOf path = some S →
        _select_query env path params comp chunk =
          (NetCall.sizeLookup path ::
            (gen_scan_range S chunk).map (fun r => NetCall.selectContent path (some r)),
           Except.ok (((gen_scan_range S chunk).map
              (fun r => _select_object_content env path (some r))).filter
              (fun t => !t.schema.isEmpty)))) := by
  constructor
  · intro h
    simp [_select_query, h]
  · intro h S hS
    simp [_select_query, h, _paginate_stream, hS]

theorem claim_C3_gate_witness :
    (scanRangeIneligible [] (some compGzip) = true ∧
      _select_query envW pathK [] (some compGzip) none =
        ([NetCall.selectContent pathK none],
         Except.ok [_select_object_content envW pathK none])) ∧
    (scanRangeIneligible [] none = false ∧ envW.sizeOf pathK = some 3 ∧
      _select_query envW pathK [] none (some 2) =
        (NetCall.sizeLookup pathK ::
          (gen_scan_range 3 (some 2)).map (fun r => NetCall.selectContent pathK (some r)),
         Except.ok (((gen_scan_range 3 (some 2)).map
            (fun r => _select_object_content envW pathK (some r))).filter
            (fun t => !t.schema.isEmpty)))) :=
  ⟨⟨by decide, (claim_C3_gate envW pathK [] (some compGzip) none).1 (by decide)⟩,
   ⟨by decide, rfl, (claim_C3_gate envW pathK [] none (some 2)).2 (by decide) 3 rfl⟩⟩

/-- C3 counterexample: the claim says a set compression (any value other
than none) forces the single whole-object call; for the empty string,
which is a set value but falsy in Python, the gate instead dispatches by
ranges: the trace of the per-object query is not the single whole-object
call. -/
theorem claim_C3_gate_cex :
    (some emptyStr : Option String) ≠ none ∧
    (_select_query envW pathK [] (some emptyStr) (some 1)).1 ≠
      [NetCall.selectContent pathK none] := by
  constructor
  · decide
  · decide

/-- C6: for an eligible (range-split) query whose size lookup returns no
value, the range dispatcher raises InvalidArgumentValue right after the
single size lookup, before issuing any scan-range reader call, and the
model performs no retry: the trace holds exactly one size lookup and no
reader call. -/
theorem claim_C6_undefined_size (env : Env) (path : String)
    (params : List (String × ParamValue)) (comp : Option String) (chunk : Option Nat)
    (helig : scanRangeIneligible params comp = false)
    (hsz : env.sizeOf path = none) :
    _select_query env path params comp chunk =
      ([NetCall.sizeLookup path], Except.error WrErr.invalidArgumentValue) ∧
    ∀ p r, NetCall.selectContent p r ∉ (_select_query env path params comp chunk).1 := by
  have h : _select_query env path params comp chunk =
      ([NetCall.sizeLookup path], Except.error WrErr.invalidArgumentValue) := by
    simp [_select_query, helig, _paginate_stream, hsz]
  refine ⟨h, ?_⟩
  intro p r
  rw [h]
  simp

theorem claim_C6_undefined_size_witness :
    scanRangeIneligible [] none = false ∧ envN.sizeOf pathK = none ∧
    _select_query envN pathK [] none none =
      ([NetCall.sizeLookup pathK], Except.error WrErr.invalidArgumentValue) :=
  ⟨by decide, rfl, (claim_C6_undefined_size envN pathK [] none none (by decide) rfl).1⟩

/-- C7: when path resolution produces an empty object list (and the
arguments pass validation), the entry point raises NoFilesFound after the
single listing call and issues no per-object query: no reader call and no
size lookup appear in the trace. -/
theorem claim_C7_no_files (env : Env) (ser : String)
    (params : List (String × ParamValue)) (comp : Option String) (chunk : Option Nat)
    (hser : ser ∈ [serCSV, serJSON, serParquet])
    (hcomp : comp ∈ [none, some compGzip, some compBzip2])
    (hcombo : ¬ (truthyCompression comp = true ∧ ¬ ser ∈ [serCSV, serJSON]))
    (hpaths : env.resolvedPaths = []) :
    select_query env ser params comp chunk =
      ([NetCall.resolvePaths], Except.error WrErr.noFilesFound) ∧
    (∀ p r, NetCall.selectContent p r ∉ (select_query env ser params comp chunk).1) ∧
    (∀ p, NetCall.sizeLookup p ∉ (select_query env ser params comp chunk).1) := by
  have h : select_query env ser params comp chunk =
      ([NetCall.resolvePaths], Except.error WrErr.noFilesFound) := by
    unfold select_query
    rw [if_neg (not_not_intro hser), if_neg (not_not_intro hcomp), if_neg hcombo,
      if_pos (by simp [hpaths])]
  refine ⟨h, ?_, ?_⟩
  · intro p r
    rw [h]
    simp
  · intro p
    rw [h]
    simp

theorem claim_C7_no_files_witness :
    envZ.resolvedPaths = [] ∧
    select_query envZ serCSV [] none none =
      ([NetCall.resolvePaths], Except.error WrErr.noFilesFound) :=
  ⟨rfl, (claim_C7_no_files envZ serCSV [] none none (by decide) (by decide)
    (by decide) rfl).1⟩

/-- C8: the range dispatcher returns exactly the decoded tables of the
planned ranges filtered to those with a non-empty schema: every returned
table has a non-empty schema, and every non-empty-schema decoded table
appears in the returned list exactly as often as it was produced. -/
theorem claim_C8_filter (env : Env) (path : String) (chunk : Option Nat) (S : Nat)
    (hS : env.sizeOf path = some S) :
    (_paginate_stream env path chunk).2 =
      Except.ok (((gen_scan_range S chunk).map
        (fun r => _select_object_content env path (some r))).filter
        (fun t => !t.schema.isEmpty)) ∧
    (∀ ts, (_paginate_stream env path chunk).2 = Except.ok ts →
      (∀ t ∈ ts, t.schema.isEmpty = false) ∧
      (∀ t : Table, t.schema.isEmpty = false →
        ts.count t = ((gen_scan_range S chunk).map
          (fun r => _select_object_content env path (some r))).count t)) := by
  have h1 : (_paginate_stream env path chunk).2 =
      Except.ok (((gen_scan_range S chunk).map
        (fun r => _select_object_content env path (some r))).filter
        (fun t => !t.schema.isEmpty)) := by
    simp [_paginate_stream, hS]
  refine ⟨h1, ?_⟩
  intro ts hts
  rw [h1] at hts
  have hts2 := Except.ok.inj hts
  constructor
  · intro t ht
    rw [← hts2] at ht
    have := (List.mem_filter.mp ht).2
    simpa using this
  · intro t ht
    rw [← hts2]
    exact List.count_filter (by simpa using ht)

theorem claim_C8_filter_witness :
    envW.sizeOf pathK = some 3 ∧
    (_paginate_stream envW pathK (some 2)).2 =
      Except.ok (((gen_scan_range 3 (some 2)).map
        (fun r => _select_object_content envW pathK (some r))).filter
        (fun t => !t.schema.isEmpty)) :=
  ⟨rfl, (claim_C8_filter envW pathK (some 2) 3 rfl).1⟩

/-- C4: the entry point validates before any network activity and raises
InvalidArgument-class errors: an input serialization outside the closed set
raises the invalid-argument-value error with an empty call trace; a
compression outside none, gzip, bzip2 raises the invalid-compression error
with an empty trace; a valid non-none compression combined with the Parquet
format raises the invalid-combination error with an empty trace; all three
conditions are InvalidArgument-class. -/
theorem claim_C4_validation (env : Env) (ser : String)
    (params : List (String × ParamValue)) (comp : Option String) (chunk : Option Nat) :
    (¬ ser ∈ [serCSV, serJSON, serParquet] →
      select_query env ser params comp chunk =
        ([], Except.error WrErr.invalidArgumentValue) ∧
      isInvalidArgumentClass WrErr.invalidArgumentValue = true) ∧
    (ser ∈ [serCSV, serJSON, serParquet] →
      ¬ comp ∈ [none, some compGzip, some compBzip2] →
      select_query env ser params comp chunk =
        ([], Except.error WrErr.invalidCompression) ∧
      isInvalidArgumentClass WrErr.invalidCompression = true) ∧
    (ser = serParquet → comp ∈ [some compGzip, some compBzip2] →
      select_query env ser params comp chunk =
        ([], Except.error WrErr.invalidArgumentCombination) ∧
      isInvalidArgumentClass WrErr.invalidArgumentCombination = true) := by
  refine ⟨?_, ?_, ?_⟩
  · intro h
    constructor
    · unfold select_query
      rw [if_pos h]
    · rfl
  · intro h1 h2
    constructor
    · unfold select_query
      rw [if_neg (not_not_intro h1), if_pos h2]
    · rfl
  · intro h1 h2
    subst h1
    constructor
    · unfold select_query
      rw [if_neg (not_not_intro (by decide : serParquet ∈ [serCSV, serJSON, serParquet]))]
      have hc : comp ∈ [none, some compGzip, some compBzip2] := by
        simp at h2
        rcases h2 with h | h <;> simp [h]
      rw [if_neg (not_not_intro hc)]
      have ht : truthyCompression comp = true ∧ ¬ serParquet ∈ [serCSV, serJSON] := by
        constructor
        · simp at h2
          rcases h2 with h | h <;> subst h <;> decide
        · decide
      rw [if_pos ht]
    · rfl

theorem claim_C4_validation_witness :
    (¬ (serXML : String) ∈ [serCSV, serJSON, serParquet] ∧
      select_query envW serXML [] none none =
        ([], Except.error WrErr.invalidArgumentValue)) ∧
    (¬ (some compZip : Option String) ∈ [none, some compGzip, some compBzip2] ∧
      select_query envW serCSV [] (some compZip) none =
        ([], Except.error WrErr.invalidCompression)) ∧
    (select_query envW serParquet [] (some compGzip) none =
      ([], Except.error WrErr.invalidArgumentCombination)) :=
  ⟨⟨by decide, ((claim_C4_validation envW serXML [] none none).1 (by decide)).1⟩,
   ⟨by decide,
    ((claim_C4_validation envW serCSV [] (some compZip) none).2.1 (by decide) (by decide)).1⟩,
   ((claim_C4_validation envW serParquet [] (some compGzip) none).2.2 rfl (by decide)).1⟩

theorem selectQueryObj_empty (env : Env) (p : String)
    (params : List (String × ParamValue)) (comp : Option String) (chunk : Option Nat)
    (hsize : (env.sizeOf p).isSome) (hrec : ∀ r, selectRecords (env.payload p r) = []) :
    ∃ ts, (_select_query env p params comp chunk).2 = Except.ok ts ∧
      ∀ t ∈ ts, t.rows = [] := by
  by_cases hg : scanRangeIneligible params comp = true
  · refine ⟨[_select_object_content env p none], ?_, ?_⟩
    · simp [_select_query, hg]
    · intro t ht
      simp at ht
      subst ht
      simp [_select_object_content, hrec none, pylist_to_arrow]
  · obtain ⟨S, hS⟩ := Option.isSome_iff_exists.mp hsize
    refine ⟨((gen_scan_range S chunk).map
        (fun r => _select_object_content env p (some r))).filter
        (fun t => !t.schema.isEmpty), ?_, ?_⟩
    · simp [_select_query, hg, _paginate_stream, hS]
    · intro t ht
      have hmem := (List.mem_filter.mp ht).1
      obtain ⟨r, hr, hrt⟩ := List.mem_map.mp hmem
      rw [← hrt]
      simp [_select_object_content, hrec (some r), pylist_to_arrow]

theorem runObjects_empty (env : Env) (params : List (String × ParamValue))
    (comp : Option String) (chunk : Option Nat) :
    ∀ paths : List String, (∀ p ∈ paths, (env.sizeOf p).isSome) →
      (∀ p r, selectRecords (env.payload p r) = []) →
      ∃ ts, (runObjects env params comp chunk paths).2 = Except.ok ts ∧
        ∀ t ∈ ts, t.rows = [] := by
  intro paths
  induction paths with
  | nil =>
    intro h1 h2
    exact ⟨[], rfl, by simp⟩
  | cons p rest ih =>
    intro hsz hrec
    obtain ⟨ts1, hts1, hrows1⟩ :=
      selectQueryObj_empty env p params comp chunk (hsz p (by simp)) (hrec p)
    obtain ⟨ts2, hts2, hrows2⟩ := ih (fun q hq => hsz q (by simp [hq])) hrec
    rcases hq : _select_query env p params comp chunk with ⟨calls1, r1⟩
    rw [hq] at hts1
    simp only at hts1
    subst hts1
    rcases hq2 : runObjects env params comp chunk rest with ⟨calls2, r2⟩
    rw [hq2] at hts2
    simp only at hts2
    subst hts2
    refine ⟨ts1 ++ ts2, ?_, ?_⟩
    · simp [runObjects, hq, hq2]
    · intro t ht
      rcases List.mem_append.mp ht with h | h
      · exact hrows1 t h
      · exact hrows2 t h

/-- C5: when path resolution succeeds (non-empty), the arguments pass
validation, every object size is defined, and every decoded payload yields
zero records (so every decoded table has an empty schema), the entry point
returns a valid empty dataframe (zero rows) instead of raising. -/
theorem claim_C5_all_empty (env : Env) (ser : String)
    (params : List (String × ParamValue)) (comp : Option String) (chunk : Option Nat)
    (hser : ser ∈ [serCSV, serJSON, serParquet])
    (hcomp : comp ∈ [none, some compGzip, some compBzip2])
    (hcombo : ¬ (truthyCompression comp = true ∧ ¬ ser ∈ [serCSV, serJSON]))
    (hpaths : env.resolvedPaths ≠ [])
    (hsize : ∀ p ∈ env.resolvedPaths, (env.sizeOf p).isSome)
    (hrec : ∀ p r, selectRecords (env.payload p r) = []) :
    ∃ t, (select_query env ser params comp chunk).2 = Except.ok t ∧ t.rows = [] := by
  obtain ⟨ts, hts, hrows⟩ :=
    runObjects_empty env params comp chunk env.resolvedPaths hsize hrec
  rcases hq : runObjects env params comp chunk env.resolvedPaths with ⟨calls, r⟩
  rw [hq] at hts
  simp only at hts
  subst hts
  refine ⟨concat_tables ts, ?_, ?_⟩
  · unfold select_query
    rw [if_neg (not_not_intro hser), if_neg (not_not_intro hcomp), if_neg hcombo,
      if_neg (by simp [List.isEmpty_eq_false, hpaths]), hq]
  · simp only [concat_tables]
    rw [List.flatten_eq_nil_iff]
    intro l hl
    obtain ⟨t, ht, hrt⟩ := List.mem_map.mp hl
    rw [← hrt]
    exact hrows t ht

theorem claim_C5_all_empty_witness :
    envW.resolvedPaths ≠ [] ∧
    ∃ t, (select_query envW serCSV [] none none).2 = Except.ok t ∧ t.rows = [] :=
  ⟨by decide,
   claim_C5_all_empty envW serCSV [] none none (by decide) (by decide) (by decide)
     (by decide) (by decide) (fun p r => rfl)⟩
